import Mathlib

/-!
Verification of the ddb-pitr restore engine against its specification.

This file gives a shallow embedding of the pure logic of the Go sources:
the record decoder (`itemimage/itemimage.go`), the table writer's batching,
retry and update-translation logic (`writer`), the checkpoint stores
(`checkpoint`), the manifest checksum verification (`manifest/manifest.go`)
and the coordinator's per-file worker pipeline (`coordinator/coordinator.go`).
Go maps of attribute values are embedded as association lists, Go `int64`
as `Int`, fallible calls as `Except`/`Option`, and the external services
(S3, DynamoDB) as explicit outcome scripts supplied to the retry loops.
-/

namespace DdbPitr

/-! ## Data model: AttributeValue, Operation (itemimage/itemimage.go) -/

/-- DynamoDB attribute value sum type. `N` keeps the number as text; `B`/`BS`
payloads are byte lists after Base64 decoding. -/
inductive AttributeValue where
  | S (s : String)
  | N (s : String)
  | B (b : List Nat)
  | BOOL (b : Bool)
  | NULL
  | SS (l : List String)
  | NS (l : List String)
  | BS (l : List (List Nat))
  | M (m : List (String × AttributeValue))
  | L (l : List AttributeValue)

/-- A decoded attribute map (`map[string]types.AttributeValue` in Go),
embedded as an association list. -/
abbrev AttrMap := List (String × AttributeValue)

/-- Operation type (`OperationType` in itemimage.go). -/
inductive OperationType where
  | put
  | delete
  | update
deriving DecidableEq, Repr

/-- A decoded operation (`Operation` in itemimage.go). Go `nil` maps are
embedded as `none`. -/
structure Operation where
  type : OperationType
  keys : Option AttrMap
  newImage : Option AttrMap
  oldImage : Option AttrMap

/-! ## Record decoder (JSONDecoder.Decode, itemimage.go lines 63-120)

`Decode` first runs `json.Unmarshal` into `map[string]json.RawMessage` and
then `attributevalue.UnmarshalMapJSON` on each recognized field. Both live
in external libraries, so the embedding starts from their results: a line
is `none` when `json.Unmarshal` fails, otherwise a `RawLine` recording, for
each recognized top-level field, whether it is absent, present but failing
`UnmarshalMapJSON`, or present and parsed to an attribute map. -/

/-- Result of `attributevalue.UnmarshalMapJSON` on one raw field. -/
inductive RawField where
  | parseFails
  | parsed (m : AttrMap)

/-- The recognized top-level fields of one JSON line after `json.Unmarshal`
(`raw["Item"]`, `raw["Keys"]`, `raw["NewImage"]`, `raw["OldImage"]`). -/
structure RawLine where
  item : Option RawField
  keys : Option RawField
  newImage : Option RawField
  oldImage : Option RawField

/-- Errors returned by `Decode`. In Go every corrupt return is
`fmt.Errorf("%w: ...", ErrCorrupt, ...)` — a fresh error value wrapping the
sentinel `ErrCorrupt`, distinct from the sentinel itself under `==`.
`corruptBare` is the sentinel value `itemimage.ErrCorrupt`; `corruptWrapped`
is a wrapping error produced by `fmt.Errorf` with `%w`. -/
inductive DecodeErr where
  | corruptBare
  | corruptWrapped (msg : String)
  | other (msg : String)
deriving DecidableEq, Repr

/-- `errors.Is(err, ErrCorrupt)` semantics: true for the sentinel and for
any error wrapping it. -/
def isCorruptErr : DecodeErr → Bool
  | .corruptBare => true
  | .corruptWrapped _ => true
  | .other _ => false

/-- Helper mirroring the three optional-field blocks of `Decode` (lines
83-105): an absent field contributes `nil`, a field failing
`UnmarshalMapJSON` makes the whole decode corrupt. -/
def parseField (fieldName : String) : Option RawField → Except DecodeErr (Option AttrMap)
  | none => .ok none
  | some .parseFails => .error (.corruptWrapped ("failed to parse " ++ fieldName))
  | some (.parsed m) => .ok (some m)

/-- `JSONDecoder.Decode` (itemimage.go lines 63-120). Input `none` models a
line on which `json.Unmarshal` itself fails. -/
def itemDecode : Option RawLine → Except DecodeErr Operation
  | none => .error (.corruptWrapped "unmarshal failed")
  | some r =>
    match r.item with
    | some .parseFails => .error (.corruptWrapped "failed to parse Item")
    | some (.parsed m) =>
      .ok { type := .put, keys := none, newImage := some m, oldImage := none }
    | none => do
      let keys ← parseField "Keys" r.keys
      let newImage ← parseField "NewImage" r.newImage
      let oldImage ← parseField "OldImage" r.oldImage
      match newImage, oldImage with
      | some n, some o => .ok { type := .update, keys := keys, newImage := some n, oldImage := some o }
      | some n, none => .ok { type := .put, keys := keys, newImage := some n, oldImage := none }
      | none, some o => .ok { type := .delete, keys := keys, newImage := none, oldImage := some o }
      | none, none => .error (.corruptWrapped "no image data found")

/-! ## Table writer (writer package, src/unnamed/part_002)

`DynamoDBWriter.WriteBatch` splits the input into sub-slices of at most
`batchSize` operations, turns Put/Delete into batched write requests
(Updates are issued individually via `updateItem`), and retries each
batched call with exponential backoff. -/

/-- `maxRetries` constant of the writer's retry loops (part_002 lines 149, 267). -/
def writerMaxRetries : Nat := 5

/-- The sub-batch split of `WriteBatch` (part_002 lines 103-108):
`for i := 0; i < len(ops); i += w.batchSize { batch := ops[i:min(i+B,len)] }`.
The `B = 0` guard only serves termination; the writer is always constructed
with a validated batch size `1 ≤ B ≤ 25` (config.Validate, part_003 line 84). -/
def chunkOps (B : Nat) : List Operation → List (List Operation)
  | [] => []
  | op :: rest =>
    if _h : B = 0 then []
    else (op :: rest).take B :: chunkOps B ((op :: rest).drop B)
termination_by ops => ops.length
decreasing_by
  simp only [List.length_drop, List.length_cons]
  omega

/-- One entry of `[]types.WriteRequest` (part_002 lines 111-133). -/
inductive WriteRequest where
  | putRequest (item : Option AttrMap)
  | deleteRequest (key : Option AttrMap)

/-- The request list built from one sub-batch (part_002 lines 111-133):
Put becomes a `PutRequest` carrying `NewImage`, Delete a `DeleteRequest`
carrying `Keys`; Update contributes no batched request (it goes through
`updateItem`). -/
def batchRequests : List Operation → List WriteRequest
  | [] => []
  | op :: rest =>
    match op.type with
    | .put => .putRequest op.newImage :: batchRequests rest
    | .delete => .deleteRequest op.keys :: batchRequests rest
    | .update => batchRequests rest

/-- The batched-write calls `WriteBatch` actually issues: one per sub-batch
with a non-empty request list (part_002 lines 135-137 skip empty ones). -/
def writeBatchCalls (B : Nat) (ops : List Operation) : List (List WriteRequest) :=
  ((chunkOps B ops).map batchRequests).filter (fun rs => !rs.isEmpty)

/-! ### Retry loops (part_002 lines 146-184 and 265-291)

The loops call the DynamoDB client repeatedly. The embedding drives them
with a script: the list of outcomes the client produces for successive
calls. Context cancellation is modelled by `cancelAt`: `backoffWait`
number `w` (counting from 0) observes cancellation iff `cancelAt = some c`
with `c ≤ w`. -/

/-- Outcome of one `BatchWriteItem` call. -/
inductive BWOutcome where
  | errThrottle
  | errOther
  | okUnprocessed
  | okClean

/-- Outcome of one `UpdateItem` call. -/
inductive UpdOutcome where
  | errThrottle
  | errOther
  | ok

/-- How a retry loop exits. `completed` is a clean break, `surfacedOther`
the `failed ... after %d retries` return, `cancelled` the `ctx.Err()`
return from a cancelled `backoffWait`; `outOfScript` is the model artifact
of exhausting the outcome script. -/
inductive RetryExit where
  | completed
  | surfacedOther
  | cancelled
  | outOfScript
deriving DecidableEq, Repr

/-- `backoffWait` result for wait number `w` (part_002 lines 62-82): `false`
when the context is cancelled during the sleep. -/
def waitOk (cancelAt : Option Nat) (w : Nat) : Bool :=
  match cancelAt with
  | none => true
  | some c => decide (w < c)

/-- The `BatchWriteItem` retry loop (part_002 lines 149-184). `attempt` is
the loop's attempt counter, `w` the number of backoff waits already done. -/
def bwRetry (cancelAt : Option Nat) : Nat → Nat → List BWOutcome → RetryExit
  | _, _, [] => .outOfScript
  | attempt, w, o :: rest =>
    match o with
    | .errThrottle =>
      if waitOk cancelAt w then bwRetry cancelAt (attempt + 1) (w + 1) rest
      else .cancelled
    | .errOther =>
      if attempt < writerMaxRetries then
        if waitOk cancelAt w then bwRetry cancelAt (attempt + 1) (w + 1) rest
        else .cancelled
      else .surfacedOther
    | .okUnprocessed =>
      if waitOk cancelAt w then bwRetry cancelAt (attempt + 1) (w + 1) rest
      else .cancelled
    | .okClean => .completed

/-- The `UpdateItem` retry loop (part_002 lines 267-291). -/
def updRetry (cancelAt : Option Nat) : Nat → Nat → List UpdOutcome → RetryExit
  | _, _, [] => .outOfScript
  | attempt, w, o :: rest =>
    match o with
    | .errThrottle =>
      if waitOk cancelAt w then updRetry cancelAt (attempt + 1) (w + 1) rest
      else .cancelled
    | .errOther =>
      if attempt < writerMaxRetries then
        if waitOk cancelAt w then updRetry cancelAt (attempt + 1) (w + 1) rest
        else .cancelled
      else .surfacedOther
    | .ok => .completed

/-! ### UPDATE translation (updateItem, part_002 lines 200-294) -/

/-- Go map key lookup `op.Keys[k]` on a possibly-nil map. -/
def mapHasKey (m : Option AttrMap) (k : String) : Bool :=
  ((m.getD []).map Prod.fst).contains k

/-- The attribute names given SET clauses (part_002 lines 212-221): every
attribute of `NewImage` that is not a key attribute. -/
def setAttrNames (op : Operation) : List String :=
  (op.newImage.getD []).filterMap fun p =>
    if mapHasKey op.keys p.1 then none else some p.1

/-- The attribute names given REMOVE clauses (part_002 lines 225-235):
every attribute of `OldImage` that is not a key attribute and was not
marked modified (i.e. not a non-key attribute of `NewImage`). -/
def removeAttrNames (op : Operation) : List String :=
  (op.oldImage.getD []).filterMap fun p =>
    if mapHasKey op.keys p.1 then none
    else if mapHasKey op.newImage p.1 && !mapHasKey op.keys p.1 then none
    else some p.1

/-- Whether `updateItem` issues an `UpdateItem` call: it returns success
without a call when both clause lists are empty (part_002 lines 237-239). -/
def updateIssuesCall (op : Operation) : Bool :=
  match setAttrNames op, removeAttrNames op with
  | [], [] => false
  | _, _ => true

/-! ## Checkpoint stores (checkpoint package, src/unnamed/part_007) -/

/-- `checkpoint.State`. Go `int64` is embedded as `Int` (the `-1` sentinel
matters). -/
structure CheckpointState where
  exportId : String
  lastFile : String
  lastByteOffset : Int
deriving DecidableEq, Repr

/-- The zero `State{}` value returned for an absent checkpoint. -/
def zeroCheckpointState : CheckpointState :=
  { exportId := "", lastFile := "", lastByteOffset := 0 }

/-- Outcome of the `GetObject` call inside `S3Store.Load` (part_007 lines
96-122), after `errors.As` classification: the error kinds the code
distinguishes, or a body whose JSON decode yields `some` state or fails. -/
inductive S3GetCk where
  | noSuchKey
  | notFound
  | otherErr (msg : String)
  | gotBody (decoded : Option CheckpointState)

/-- `S3Store.Load` (part_007 lines 96-123). -/
def s3StoreLoad : S3GetCk → Except String CheckpointState
  | .noSuchKey => .ok zeroCheckpointState
  | .notFound => .ok zeroCheckpointState
  | .otherErr msg => .error ("failed to get checkpoint: " ++ msg)
  | .gotBody none => .error "failed to decode checkpoint"
  | .gotBody (some s) => .ok s

/-- Outcome of `os.ReadFile` inside `FileStore.Load` (part_007 lines
211-226): the file does not exist, another read error, or data whose JSON
decode yields `some` state or fails. -/
inductive FileReadCk where
  | notExist
  | otherErr (msg : String)
  | gotData (decoded : Option CheckpointState)

/-- `FileStore.Load` (part_007 lines 211-226). -/
def fileStoreLoad : FileReadCk → Except String CheckpointState
  | .notExist => .ok zeroCheckpointState
  | .otherErr msg => .error ("failed to read checkpoint file: " ++ msg)
  | .gotData none => .error "failed to decode checkpoint"
  | .gotData (some s) => .ok s

/-! ## Manifest checksum verification (manifest/manifest.go lines 186-231) -/

/-- `manifest.FileMeta`. -/
structure FileMeta where
  key : String
  etag : String
  md5Base64 : String
  itemCount : Int
deriving DecidableEq, Repr

/-- Value of one Base64 alphabet character (`base64.StdEncoding`). -/
def b64Val (c : Char) : Option Nat :=
  if 'A' ≤ c ∧ c ≤ 'Z' then some (c.toNat - 65)
  else if 'a' ≤ c ∧ c ≤ 'z' then some (c.toNat - 97 + 26)
  else if '0' ≤ c ∧ c ≤ '9' then some (c.toNat - 48 + 52)
  else if c = '+' then some 62
  else if c = '/' then some 63
  else none

/-- Decode Base64 character groups of four into bytes, with standard `=`
padding allowed only in the final group (`base64.StdEncoding.DecodeString`). -/
def b64DecodeGroups : List Char → Option (List Nat)
  | [] => some []
  | c0 :: c1 :: c2 :: c3 :: rest => do
    let v0 ← b64Val c0
    let v1 ← b64Val c1
    if c2 = '=' then
      if c3 = '=' ∧ rest = [] then some [v0 * 4 + v1 / 16] else none
    else do
      let v2 ← b64Val c2
      if c3 = '=' then
        if rest = [] then some [v0 * 4 + v1 / 16, (v1 % 16) * 16 + v2 / 4] else none
      else do
        let v3 ← b64Val c3
        let tail ← b64DecodeGroups rest
        some ((v0 * 4 + v1 / 16) :: ((v1 % 16) * 16 + v2 / 4) :: ((v2 % 4) * 64 + v3) :: tail)
  | _ => none

/-- `base64.StdEncoding.DecodeString`, returning `none` on malformed input. -/
def base64Decode (s : String) : Option (List Nat) :=
  b64DecodeGroups s.toList

/-- One lowercase hex digit. -/
def hexDigit (n : Nat) : Char :=
  if n < 10 then Char.ofNat (48 + n) else Char.ofNat (87 + n)

/-- `fmt.Sprintf("%x", bytes)`: lowercase hex of a byte list. -/
def hexOfBytes (bs : List Nat) : String :=
  String.mk (bs.foldr (fun b acc => hexDigit (b / 16 % 16) :: hexDigit (b % 16) :: acc) [])

/-- `strings.Trim(s, "\"")`: strip all leading and trailing quote characters. -/
def trimQuotes (s : String) : String :=
  String.mk (((s.toList.dropWhile (· = '"')).reverse.dropWhile (· = '"')).reverse)

/-- Error kinds of `VerifyChecksums`, each tagged with the file key. -/
inductive VerifyError where
  | headFailed (key : String)
  | nilETag (key : String)
  | badBase64 (key : String)
  | mismatch (key : String)
deriving DecidableEq, Repr

/-- The per-file check of `VerifyChecksums` (manifest.go lines 193-228).
The second argument is the outcome of the `HeadObject` metadata fetch:
`none` when the call errors, `some none` when `resp.ETag` is nil, and
`some (some e)` for an ETag string `e`. Returns `none` when the file
passes. -/
def verifyFile (file : FileMeta) (head : Option (Option String)) : Option VerifyError :=
  match head with
  | none => some (.headFailed file.key)
  | some none => some (.nilETag file.key)
  | some (some rawETag) =>
    let etag := trimQuotes rawETag
    match base64Decode file.md5Base64 with
    | none => some (.badBase64 file.key)
    | some md5Bytes =>
      let expectedMD5Hex := hexOfBytes md5Bytes
      if etag ≠ expectedMD5Hex then
        if rawETag ≠ "\"" ++ expectedMD5Hex ++ "\"" then some (.mismatch file.key)
        else none
      else none

/-- The file loop of `VerifyChecksums` (manifest.go lines 193-228): each
file is paired with its `HeadObject` outcome; the loop returns the first
file's error and checks no later file. -/
def verifyChecksums : List (FileMeta × Option (Option String)) → Option VerifyError
  | [] => none
  | (f, h) :: rest =>
    match verifyFile f h with
    | some e => some e
    | none => verifyChecksums rest

/-- Modelled from the spec: the comparison §4.1 describes — "compare
case-insensitively to the ETag with surrounding quotes stripped". The
spec's comparator, used only to contrast with the source's `verifyFile`. -/
def specCaseInsensitiveMatch (etagStripped : String) (expectedHex : String) : Bool :=
  etagStripped.toList.map Char.toLower == expectedHex.toList.map Char.toLower

/-! ## Coordinator worker pipeline (coordinator/coordinator.go lines 282-424)

Each worker processes one file at a time: it loads the checkpoint, decides
where to resume, streams the file line by line through a callback that
decodes, batches, writes and periodically checkpoints, and after a clean
stream drains the last batch and saves the `-1` completion checkpoint. -/

/-- `checkpointInterval` (coordinator.go line 263). -/
def checkpointInterval : Nat := 100

/-- `completedFileOffset` sentinel (coordinator.go line 267). -/
def completedFileOffset : Int := -1

/-- The resume decision for an assigned file (coordinator.go lines 301-309):
skip a completed file, resume a partially-done one at its saved offset,
start any other file at 0. -/
inductive ResumeDecision where
  | skipFile
  | startAt (offset : Int)
deriving DecidableEq, Repr

/-- Lines 301-309 of `worker`: `offset := 0; if file.Key == state.LastFile
{ if state.LastByteOffset == completedFileOffset { continue }; offset =
state.LastByteOffset }`. -/
def resumeDecision (fileKey : String) (state : CheckpointState) : ResumeDecision :=
  if fileKey = state.lastFile then
    if state.lastByteOffset = completedFileOffset then .skipFile
    else .startAt state.lastByteOffset
  else .startAt 0

/-- The worker-local mutable state threaded through the per-line callback,
plus the observable effects: checkpoint saves, writer calls, and the
metrics counters the callback touches. -/
structure WorkerAcc where
  batch : List Operation
  batchesSinceCheckpoint : Nat
  currentOffset : Int
  saves : List CheckpointState
  batchCalls : List (List Operation)
  corrupt : Nat
  errCount : Nat
  processed : Nat

/-- Fresh accumulator at the start of a file. -/
def initialWorkerAcc : WorkerAcc :=
  { batch := [], batchesSinceCheckpoint := 0, currentOffset := 0,
    saves := [], batchCalls := [], corrupt := 0, errCount := 0, processed := 0 }

/-- `Coordinator.writeBatch` (coordinator.go lines 396-424) with the writer
succeeding: record the writer call, and save a progress checkpoint
`{ExportID: file.Key, LastFile: file.Key, LastByteOffset: offset}` when
`shouldCheckpoint` holds (lines 411-421). -/
def coordWriteBatch (fileKey : String) (acc : WorkerAcc) (shouldCheckpoint : Bool) : WorkerAcc :=
  let acc := { acc with batchCalls := acc.batchCalls ++ [acc.batch] }
  if shouldCheckpoint then
    { acc with saves := acc.saves ++
        [{ exportId := fileKey, lastFile := fileKey, lastByteOffset := acc.currentOffset }] }
  else acc

/-- The per-line streaming callback (coordinator.go lines 327-358). It
updates the current offset, decodes the line, treats an error *equal* to
the sentinel `ErrCorrupt` (Go `==`, not `errors.Is`) as a counted skip,
fails on any other error, and otherwise batches the operation, writing and
checkpointing when the batch fills. Returns the updated accumulator and
`some e` when the callback returns the error `e` (aborting the stream). -/
def lineCallback (batchSize : Nat) (fileKey : String) (acc : WorkerAcc)
    (line : Option RawLine) (byteOffset : Int) : WorkerAcc × Option DecodeErr :=
  let acc := { acc with currentOffset := byteOffset }
  match itemDecode line with
  | .error e =>
    if e = .corruptBare then ({ acc with corrupt := acc.corrupt + 1 }, none)
    else ({ acc with errCount := acc.errCount + 1 }, some e)
  | .ok op =>
    let acc := { acc with batch := acc.batch ++ [op], processed := acc.processed + 1 }
    if batchSize ≤ acc.batch.length then
      let bsc := acc.batchesSinceCheckpoint + 1
      let shouldCheckpoint := decide (checkpointInterval ≤ bsc)
      let acc := coordWriteBatch fileKey { acc with batchesSinceCheckpoint := bsc } shouldCheckpoint
      let acc := { acc with
        batchesSinceCheckpoint := if shouldCheckpoint then 0 else acc.batchesSinceCheckpoint,
        batch := [] }
      (acc, none)
    else (acc, none)

/-- One streaming pass: the callback applied to each delivered
`(line, byteOffset)` pair in order, aborting on the first callback error
(the streamer stops when the callback fails). -/
def runLines (batchSize : Nat) (fileKey : String) :
    WorkerAcc → List (Option RawLine × Int) → WorkerAcc × Option DecodeErr
  | acc, [] => (acc, none)
  | acc, (l, off) :: rest =>
    match lineCallback batchSize fileKey acc l off with
    | (acc', some e) => (acc', some e)
    | (acc', none) => runLines batchSize fileKey acc' rest

/-- One worker's processing of one assigned file (coordinator.go lines
289-388), for a single streaming attempt that delivers `lines`: resume
decision from the loaded checkpoint state, the streaming callback over the
lines, and on a clean stream the drain write (with its checkpoint save,
lines 373-378) followed by the completion checkpoint
`{ExportID: file.Key, LastFile: file.Key, LastByteOffset: -1}` (lines
381-388). The second component is the error the worker returns, if any. -/
def processFile (batchSize : Nat) (fileKey : String) (ckState : CheckpointState)
    (lines : List (Option RawLine × Int)) : WorkerAcc × Option DecodeErr :=
  match resumeDecision fileKey ckState with
  | .skipFile => (initialWorkerAcc, none)
  | .startAt _ =>
    match runLines batchSize fileKey initialWorkerAcc lines with
    | (acc, some e) => (acc, some e)
    | (acc, none) =>
      let acc :=
        if acc.batch.isEmpty then acc
        else { coordWriteBatch fileKey acc true with batch := [] }
      let acc := { acc with saves := acc.saves ++
        [{ exportId := fileKey, lastFile := fileKey, lastByteOffset := completedFileOffset }] }
      (acc, none)

/-! ## Theorems -/

/-- Claim C2: for every valid input line, `Decode` returns an Operation
following the spec's table: a FULL-shape line with `Item` yields PUT with
`newImage = Item`; an INCREMENTAL-shape line yields UPDATE when both
`NewImage` and `OldImage` are present, PUT when only `NewImage` is present,
DELETE when only `OldImage` is present; and when both are absent, or the
JSON is malformed, `Decode` returns an error wrapping `ErrCorrupt`. -/
theorem c2_decoder_table :
    (∀ (m : AttrMap) (kF nF oF : Option RawField),
      itemDecode (some { item := some (.parsed m), keys := kF, newImage := nF, oldImage := oF })
        = .ok { type := .put, keys := none, newImage := some m, oldImage := none })
    ∧ (∀ (keys n o : Option AttrMap),
      itemDecode (some { item := none, keys := keys.map .parsed,
                         newImage := n.map .parsed, oldImage := o.map .parsed })
        = match n, o with
          | some nm, some om =>
            .ok { type := .update, keys := keys, newImage := some nm, oldImage := some om }
          | some nm, none =>
            .ok { type := .put, keys := keys, newImage := some nm, oldImage := none }
          | none, some om =>
            .ok { type := .delete, keys := keys, newImage := none, oldImage := some om }
          | none, none => .error (.corruptWrapped "no image data found"))
    ∧ (∃ e, itemDecode none = .error e ∧ isCorruptErr e = true)
    ∧ (∃ e, itemDecode (some { item := none, keys := none, newImage := none, oldImage := none })
              = .error e ∧ isCorruptErr e = true) := by
  refine ⟨fun m kF nF oF => rfl, fun keys n o => ?_, ⟨_, rfl, rfl⟩, ⟨_, rfl, rfl⟩⟩
  cases keys <;> cases n <;> cases o <;> rfl

/-- Claim C10: a FULL-export-shape line (field `Item` parsed successfully)
decodes to an Operation with only `NewImage` populated: `Keys` and
`OldImage` are nil and the type is PUT, whatever the other raw fields hold. -/
theorem c10_full_shape_only_new_image (m : AttrMap) (kF nF oF : Option RawField) :
    itemDecode (some { item := some (.parsed m), keys := kF, newImage := nF, oldImage := oF })
      = .ok { type := .put, keys := none, newImage := some m, oldImage := none } := rfl

/-- Claim C8: for both checkpoint backends, loading an absent checkpoint
succeeds with the zero state: the file store on a missing file, the object
store on `NoSuchKey` or `NotFound`. -/
theorem c8_absent_checkpoint_loads_zero :
    s3StoreLoad .noSuchKey = .ok zeroCheckpointState
    ∧ s3StoreLoad .notFound = .ok zeroCheckpointState
    ∧ fileStoreLoad .notExist = .ok zeroCheckpointState :=
  ⟨rfl, rfl, rfl⟩

/-- Claim C6: for an assigned file and loaded checkpoint state, the worker
skips the file when `lastFile` matches and `lastByteOffset = -1`, resumes
at `lastByteOffset` when only `lastFile` matches, and starts at 0 otherwise. -/
theorem c6_resume_offset (key : String) (st : CheckpointState) :
    (st.lastFile = key → st.lastByteOffset = -1 → resumeDecision key st = .skipFile)
    ∧ (st.lastFile = key → st.lastByteOffset ≠ -1 →
        resumeDecision key st = .startAt st.lastByteOffset)
    ∧ (st.lastFile ≠ key → resumeDecision key st = .startAt 0) := by
  refine ⟨fun h1 h2 => ?_, fun h1 h2 => ?_, fun h1 => ?_⟩
  · simp [resumeDecision, completedFileOffset, h1.symm, h2]
  · simp [resumeDecision, completedFileOffset, h1.symm, h2]
  · rw [resumeDecision, if_neg (fun h => h1 h.symm)]

/-- Witness for C6 at concrete inputs: all three branches. -/
theorem c6_resume_offset_witness :
    resumeDecision "f1" { exportId := "x", lastFile := "f1", lastByteOffset := -1 } = .skipFile
    ∧ resumeDecision "f1" { exportId := "x", lastFile := "f1", lastByteOffset := 42 } = .startAt 42
    ∧ resumeDecision "f2" { exportId := "x", lastFile := "f1", lastByteOffset := 42 } = .startAt 0 :=
  ⟨(c6_resume_offset "f1" _).1 rfl rfl,
   (c6_resume_offset "f1" _).2.1 rfl (by decide),
   (c6_resume_offset "f2" _).2.2 (by decide)⟩

/-- A concrete line like `{"bogus":true}`: `json.Unmarshal` succeeds but
none of the recognized fields is present. -/
def bogusRawLine : Option RawLine :=
  some { item := none, keys := none, newImage := none, oldImage := none }

/-- Claim C1 (code bug, evaluated at the failing input): on a corrupt line
the decoder returns a *wrapped* `ErrCorrupt`, the callback's Go `==`
comparison with the bare sentinel fails, so the callback records an error
and returns it — the worker fails instead of counting and skipping, and
the corrupt counter stays 0. -/
theorem c1_corrupt_line_fails_worker :
    (processFile 25 "data-file-1" zeroCheckpointState [(bogusRawLine, 37)]).2
        = some (.corruptWrapped "no image data found")
    ∧ (processFile 25 "data-file-1" zeroCheckpointState [(bogusRawLine, 37)]).1.corrupt = 0
    ∧ (processFile 25 "data-file-1" zeroCheckpointState [(bogusRawLine, 37)]).1.errCount = 1
    ∧ isCorruptErr (.corruptWrapped "no image data found") = true := by
  refine ⟨by decide, by decide, by decide, rfl⟩

/-- The C9 invariant: every checkpoint state in `saves` is tagged with the
file's object key in both `exportId` and `lastFile`. -/
def savesTagged (fileKey : String) (acc : WorkerAcc) : Prop :=
  ∀ s ∈ acc.saves, s.exportId = fileKey ∧ s.lastFile = fileKey

theorem savesTagged_coordWriteBatch {fileKey : String} {acc : WorkerAcc} (b : Bool)
    (h : savesTagged fileKey acc) : savesTagged fileKey (coordWriteBatch fileKey acc b) := by
  cases b with
  | false => exact h
  | true =>
    intro s hs
    simp only [coordWriteBatch, if_pos] at hs
    rcases List.mem_append.1 hs with h' | h'
    · exact h s h'
    · rcases List.mem_singleton.1 h' with rfl
      exact ⟨rfl, rfl⟩

theorem savesTagged_lineCallback {fileKey : String} {acc : WorkerAcc}
    (batchSize : Nat) (line : Option RawLine) (off : Int)
    (h : savesTagged fileKey acc) :
    savesTagged fileKey (lineCallback batchSize fileKey acc line off).1 := by
  unfold lineCallback
  dsimp only
  split
  · split
    · exact h
    · exact h
  · split
    · exact savesTagged_coordWriteBatch _ h
    · exact h

theorem savesTagged_runLines (fileKey : String) (batchSize : Nat)
    (lines : List (Option RawLine × Int)) :
    ∀ acc : WorkerAcc, savesTagged fileKey acc →
      savesTagged fileKey (runLines batchSize fileKey acc lines).1 := by
  induction lines with
  | nil => exact fun acc h => h
  | cons p rest ih =>
    intro acc h
    obtain ⟨l, off⟩ := p
    have hcb := savesTagged_lineCallback batchSize l off h
    unfold runLines
    cases hres : lineCallback batchSize fileKey acc l off with
    | mk acc' e =>
      rw [hres] at hcb
      cases e with
      | some err => exact hcb
      | none => exact ih acc' hcb

/-- Claim C9: every checkpoint state the worker saves for a file — the
periodic progress checkpoints, the drain checkpoint and the completion
sentinel — carries the file's object key in both `ExportID` and
`LastFile`; the export's real identifier is never written. -/
theorem c9_checkpoint_export_id (batchSize : Nat) (fileKey : String)
    (st : CheckpointState) (lines : List (Option RawLine × Int)) :
    ∀ s ∈ (processFile batchSize fileKey st lines).1.saves,
      s.exportId = fileKey ∧ s.lastFile = fileKey := by
  unfold processFile
  cases resumeDecision fileKey st with
  | skipFile => intro s hs; simp [initialWorkerAcc] at hs
  | startAt off =>
    have hrun := savesTagged_runLines fileKey batchSize lines
      initialWorkerAcc (by intro s hs; simp [initialWorkerAcc] at hs)
    cases hres : runLines batchSize fileKey initialWorkerAcc lines with
    | mk acc e =>
      rw [hres] at hrun
      cases e with
      | some err => exact hrun
      | none =>
        have hdrain : savesTagged fileKey
            (if acc.batch.isEmpty then acc
             else { coordWriteBatch fileKey acc true with batch := [] }) := by
          by_cases hb : acc.batch.isEmpty
          · simpa [hb] using hrun
          · simp only [hb, if_false, Bool.false_eq_true]
            exact savesTagged_coordWriteBatch true hrun
        intro s hs
        rcases List.mem_append.1 hs with h' | h'
        · exact hdrain s h'
        · rcases List.mem_singleton.1 h' with rfl
          exact ⟨rfl, rfl⟩

/-- Witness for C9: the completion checkpoint of an empty file is tagged
with the file key. -/
theorem c9_checkpoint_export_id_witness :
    ({ exportId := "f1", lastFile := "f1", lastByteOffset := -1 } : CheckpointState).exportId = "f1"
    ∧ ({ exportId := "f1", lastFile := "f1", lastByteOffset := -1 } : CheckpointState).lastFile = "f1" :=
  c9_checkpoint_export_id 25 "f1" zeroCheckpointState []
    { exportId := "f1", lastFile := "f1", lastByteOffset := -1 } (by decide)

theorem bwRetry_throttle_completes (n : Nat) :
    ∀ a w, bwRetry none a w (List.replicate n .errThrottle ++ [.okClean]) = .completed := by
  induction n with
  | zero => intro a w; rfl
  | succ m ih =>
    intro a w
    simpa [List.replicate_succ, bwRetry, waitOk] using ih (a + 1) (w + 1)

theorem bwRetry_other_surfaces (j : Nat) :
    ∀ a w rest, a + j = writerMaxRetries →
      bwRetry none a w (List.replicate (j + 1) .errOther ++ rest) = .surfacedOther := by
  induction j with
  | zero =>
    intro a w rest ha
    simp [List.replicate_succ, bwRetry, show ¬ a < writerMaxRetries by omega]
  | succ m ih =>
    intro a w rest ha
    have := ih (a + 1) (w + 1) rest (by omega)
    simpa [List.replicate_succ, bwRetry, waitOk, show a < writerMaxRetries by omega] using this

theorem bwRetry_few_other_completes (k : Nat) :
    ∀ a w, a + k ≤ writerMaxRetries →
      bwRetry none a w (List.replicate k .errOther ++ [.okClean]) = .completed := by
  induction k with
  | zero => intro a w _; rfl
  | succ m ih =>
    intro a w hk
    have := ih (a + 1) (w + 1) (by omega)
    simpa [List.replicate_succ, bwRetry, waitOk, show a < writerMaxRetries by omega] using this

theorem updRetry_throttle_completes (n : Nat) :
    ∀ a w, updRetry none a w (List.replicate n .errThrottle ++ [.ok]) = .completed := by
  induction n with
  | zero => intro a w; rfl
  | succ m ih =>
    intro a w
    simpa [List.replicate_succ, updRetry, waitOk] using ih (a + 1) (w + 1)

theorem updRetry_other_surfaces (j : Nat) :
    ∀ a w rest, a + j = writerMaxRetries →
      updRetry none a w (List.replicate (j + 1) .errOther ++ rest) = .surfacedOther := by
  induction j with
  | zero =>
    intro a w rest ha
    simp [List.replicate_succ, updRetry, show ¬ a < writerMaxRetries by omega]
  | succ m ih =>
    intro a w rest ha
    have := ih (a + 1) (w + 1) rest (by omega)
    simpa [List.replicate_succ, updRetry, waitOk, show a < writerMaxRetries by omega] using this

theorem updRetry_few_other_completes (k : Nat) :
    ∀ a w, a + k ≤ writerMaxRetries →
      updRetry none a w (List.replicate k .errOther ++ [.ok]) = .completed := by
  induction k with
  | zero => intro a w _; rfl
  | succ m ih =>
    intro a w hk
    have := ih (a + 1) (w + 1) (by omega)
    simpa [List.replicate_succ, updRetry, waitOk, show a < writerMaxRetries by omega] using this

/-- Claim C3: in both writer retry loops (`WriteBatch` and `updateItem`),
throttling errors are retried without any attempt cap — any number of
consecutive throttles before a success still completes — and surface only
as the cancellation error when the context is cancelled during the
backoff, while a non-throttling error is retried at most `maxRetries = 5`
times: five such errors before a success still complete, and a sixth
consecutive one surfaces the error to the caller. -/
theorem c3_retry_policy (n : Nat) (rest : List BWOutcome) (rest2 : List UpdOutcome) :
    bwRetry none 0 0 (List.replicate n .errThrottle ++ [.okClean]) = .completed
    ∧ bwRetry none 0 0 (List.replicate writerMaxRetries .errOther ++ [.okClean]) = .completed
    ∧ bwRetry none 0 0 (List.replicate (writerMaxRetries + 1) .errOther ++ rest) = .surfacedOther
    ∧ (∀ a w, bwRetry (some 0) a w (.errThrottle :: rest) = .cancelled)
    ∧ updRetry none 0 0 (List.replicate n .errThrottle ++ [.ok]) = .completed
    ∧ updRetry none 0 0 (List.replicate writerMaxRetries .errOther ++ [.ok]) = .completed
    ∧ updRetry none 0 0 (List.replicate (writerMaxRetries + 1) .errOther ++ rest2) = .surfacedOther
    ∧ (∀ a w, updRetry (some 0) a w (.errThrottle :: rest2) = .cancelled) := by
  refine ⟨bwRetry_throttle_completes n 0 0,
    bwRetry_few_other_completes writerMaxRetries 0 0 (by omega),
    bwRetry_other_surfaces writerMaxRetries 0 0 rest rfl,
    fun a w => by simp [bwRetry, waitOk],
    updRetry_throttle_completes n 0 0,
    updRetry_few_other_completes writerMaxRetries 0 0 (by omega),
    updRetry_other_surfaces writerMaxRetries 0 0 rest2 rfl,
    fun a w => by simp [updRetry, waitOk]⟩

theorem chunkOps_flatten (B : Nat) (hB : 1 ≤ B) :
    ∀ ops : List Operation, (chunkOps B ops).flatten = ops := by
  suffices h : ∀ (n : Nat) (ops : List Operation), ops.length = n →
      (chunkOps B ops).flatten = ops from fun ops => h ops.length ops rfl
  intro n
  induction n using Nat.strong_induction_on with
  | _ n ih =>
    intro ops hn
    cases ops with
    | nil => simp [chunkOps]
    | cons op rest =>
      rw [chunkOps, dif_neg (by omega), List.flatten_cons,
        ih ((op :: rest).drop B).length (by subst hn; simp [List.length_drop]; omega) _ rfl]
      exact List.take_append_drop B (op :: rest)

theorem chunkOps_length_le (B : Nat) :
    ∀ ops : List Operation, ∀ c ∈ chunkOps B ops, c.length ≤ B := by
  suffices h : ∀ (n : Nat) (ops : List Operation), ops.length = n →
      ∀ c ∈ chunkOps B ops, c.length ≤ B from fun ops => h ops.length ops rfl
  intro n
  induction n using Nat.strong_induction_on with
  | _ n ih =>
    intro ops hn
    cases ops with
    | nil => simp [chunkOps]
    | cons op rest =>
      intro c hc
      by_cases hB : B = 0
      · simp [chunkOps, hB] at hc
      · rw [chunkOps, dif_neg hB] at hc
        rcases List.mem_cons.1 hc with rfl | hc2
        · simp
        · exact ih ((op :: rest).drop B).length
            (by subst hn; simp [List.length_drop]; omega) _ rfl c hc2

theorem batchRequests_length_le (ops : List Operation) :
    (batchRequests ops).length ≤ ops.length := by
  induction ops with
  | nil => simp [batchRequests]
  | cons op rest ih =>
    rw [batchRequests]
    cases op.type <;> simp <;> omega

/-- Claim C4: for every operation slice and configured batch size
`1 ≤ B ≤ 25`, `WriteBatch` partitions the input into sub-batches of at
most `B` operations (their concatenation being the input), and no
batched-write call it issues carries more than 25 requests. -/
theorem c4_batch_partition (ops : List Operation) (B : Nat)
    (h1 : 1 ≤ B) (h2 : B ≤ 25) :
    (chunkOps B ops).flatten = ops
    ∧ (∀ c ∈ chunkOps B ops, c.length ≤ B)
    ∧ (∀ rs ∈ writeBatchCalls B ops, rs.length ≤ 25) := by
  refine ⟨chunkOps_flatten B h1 ops, chunkOps_length_le B ops, ?_⟩
  intro rs hrs
  have hrs' := List.mem_filter.1 hrs
  rcases List.mem_map.1 hrs'.1 with ⟨c, hc, rfl⟩
  calc (batchRequests c).length ≤ c.length := batchRequests_length_le c
    _ ≤ B := chunkOps_length_le B ops c hc
    _ ≤ 25 := h2

/-- A concrete operation slice for the C4 witness. -/
def c4OpsW : List Operation :=
  [{ type := .put, keys := none, newImage := some [], oldImage := none },
   { type := .delete, keys := some [], newImage := none, oldImage := none },
   { type := .update, keys := some [], newImage := some [], oldImage := some [] }]

/-- Witness for C4 at batch size 2. -/
theorem c4_batch_partition_witness :
    (chunkOps 2 c4OpsW).flatten = c4OpsW :=
  (c4_batch_partition c4OpsW 2 (by decide) (by decide)).1

theorem mapHasKey_iff (m : Option AttrMap) (k : String) :
    mapHasKey m k = true ↔ k ∈ (m.getD []).map Prod.fst := by
  simp [mapHasKey, List.contains_iff_exists_mem_beq, beq_iff_eq]

/-- Claim C5: the update translation emits SET clauses for exactly the
attributes of `NewImage` not present in `Keys`, REMOVE clauses for exactly
the attributes of `OldImage` present neither in `Keys` nor in `NewImage`,
and when both clause lists are empty it returns success without issuing an
`UpdateItem` call. -/
theorem c5_update_translation (op : Operation) (k : String) :
    (k ∈ setAttrNames op ↔
      mapHasKey op.newImage k = true ∧ mapHasKey op.keys k = false)
    ∧ (k ∈ removeAttrNames op ↔
      mapHasKey op.oldImage k = true ∧ mapHasKey op.keys k = false
        ∧ mapHasKey op.newImage k = false)
    ∧ (updateIssuesCall op = false ↔
      setAttrNames op = [] ∧ removeAttrNames op = []) := by
  refine ⟨?_, ?_, ?_⟩
  · constructor
    · intro hk
      rcases List.mem_filterMap.1 hk with ⟨p, hp, hf⟩
      by_cases hkey : mapHasKey op.keys p.1
      · simp [hkey] at hf
      · rw [if_neg hkey] at hf
        cases hf
        exact ⟨(mapHasKey_iff _ _).2 (List.mem_map.2 ⟨p, hp, rfl⟩),
          Bool.not_eq_true _ ▸ hkey⟩
    · rintro ⟨hnew, hkey⟩
      rcases List.mem_map.1 ((mapHasKey_iff _ _).1 hnew) with ⟨p, hp, hpk⟩
      refine List.mem_filterMap.2 ⟨p, hp, ?_⟩
      rw [hpk, if_neg (by simp [hkey])]
  · constructor
    · intro hk
      rcases List.mem_filterMap.1 hk with ⟨p, hp, hf⟩
      by_cases hkey : mapHasKey op.keys p.1
      · simp [hkey] at hf
      · rw [if_neg hkey] at hf
        by_cases hnew : mapHasKey op.newImage p.1
        · simp [hnew, hkey] at hf
        · rw [if_neg (by simp [hnew])] at hf
          cases hf
          exact ⟨(mapHasKey_iff _ _).2 (List.mem_map.2 ⟨p, hp, rfl⟩),
            Bool.not_eq_true _ ▸ hkey, Bool.not_eq_true _ ▸ hnew⟩
    · rintro ⟨hold, hkey, hnew⟩
      rcases List.mem_map.1 ((mapHasKey_iff _ _).1 hold) with ⟨p, hp, hpk⟩
      refine List.mem_filterMap.2 ⟨p, hp, ?_⟩
      rw [hpk, if_neg (by simp [hkey]), if_neg (by simp [hnew])]
  · cases h1 : setAttrNames op <;> cases h2 : removeAttrNames op <;>
      simp [updateIssuesCall, h1, h2]

/-- A file descriptor whose `md5Checksum` is the Base64 of the single byte
0xAB (`"qw=="`), so the expected hex digest is `"ab"`. -/
def c7File : FileMeta :=
  { key := "data1", etag := "", md5Base64 := "qw==", itemCount := 1 }

/-- Counterexample to claim C7: the comparison is not case-insensitive.
For the storage ETag `"AB"` (uppercase hex, quoted) the spec's
case-insensitive comparison matches the expected digest `"ab"`, yet
`VerifyChecksums` reports a mismatch, because it compares the strings
exactly (and falls back to comparing the raw quoted ETag against the
quoted lowercase hex). -/
theorem c7_counterexample :
    verifyChecksums [(c7File, some (some "\"AB\""))] = some (.mismatch "data1")
    ∧ specCaseInsensitiveMatch (trimQuotes "\"AB\"") (hexOfBytes [171]) = true
    ∧ base64Decode "qw==" = some [171] := by
  refine ⟨by decide, by decide, by decide⟩

/-- Claim C7 as amended: checksum verification fetches each file's
metadata, decodes `md5Checksum` from Base64 to lowercase hex, and passes a
file exactly when the ETag with surrounding quotes stripped equals that
hex string *case-sensitively*, or the raw ETag equals the quoted hex; it
returns the error of the first failing file, leaving later files
unchecked. -/
theorem c7_checksum_verification :
    (∀ (f : FileMeta) (rawETag : String),
      verifyFile f (some (some rawETag)) = none ↔
        ∃ bytes, base64Decode f.md5Base64 = some bytes ∧
          (trimQuotes rawETag = hexOfBytes bytes
            ∨ rawETag = "\"" ++ hexOfBytes bytes ++ "\""))
    ∧ (∀ f h e rest, verifyFile f h = some e →
        verifyChecksums ((f, h) :: rest) = some e)
    ∧ (∀ f h rest, verifyFile f h = none →
        verifyChecksums ((f, h) :: rest) = verifyChecksums rest) := by
  refine ⟨?_, ?_, ?_⟩
  · intro f rawETag
    unfold verifyFile
    cases hb : base64Decode f.md5Base64 with
    | none => simp
    | some bytes =>
      by_cases h1 : trimQuotes rawETag = hexOfBytes bytes
      · simp [h1]
      · by_cases h2 : rawETag = "\"" ++ hexOfBytes bytes ++ "\""
        · simp [h1, h2]
        · simp [h1, h2]
  · intro f h e rest hf
    simp [verifyChecksums, hf]
  · intro f h rest hf
    simp [verifyChecksums, hf]

/-- Witness for the amended C7: a passing file defers to the rest of the
list. -/
theorem c7_checksum_verification_witness :
    verifyChecksums [(c7File, some (some "\"ab\""))] = verifyChecksums [] :=
  c7_checksum_verification.2.2 c7File (some (some "\"ab\"")) [] (by decide)

end DdbPitr
